import Mathlib

/-!
Shallow embedding of `src/PittAPI/course.py` (the Pitt course-catalog
scraper): Python string primitives, the validators, the entity tree
(`PittSubject` / `PittCourse` / `PittSection`), the HTML extraction passes
and the lazy extra-details cache, together with theorems settling the
frozen claims about them.

Python strings are modelled by `String` viewed through its character list;
the string primitives below (`pySplit`, `pyStrip`, `pySlice`, ...) mirror
the semantics of the corresponding Python `str` methods and are written
with structural recursion so that every definition evaluates inside the
kernel. A Python exception escaping a function is modelled by `none`
(or by an explicit error value where the exception kind matters).
-/

/-! ## Python string primitives -/

/-- Characters treated as whitespace by Python `str.strip()`. -/
def isPySpace (c : Char) : Bool :=
  c = ' ' || c = '\t' || c = '\n' || c = '\r' || c = '\x0b' || c = '\x0c'

/-- Python `s.strip()`: remove leading and trailing whitespace. -/
def pyStrip (s : String) : String :=
  String.mk (((s.data.dropWhile isPySpace).reverse.dropWhile isPySpace).reverse)

/-- Helper for `pySplit`: split a character list on every (non-overlapping,
leftmost-first) occurrence of the separator `sep`.  The `fuel` argument only
makes the recursion structural; with `fuel = length of the list` the
zero-fuel branch is unreachable because every step consumes at least one
character. -/
def pySplitAux (sep : List Char) : Nat → List Char → List Char → List (List Char)
  | _, [], acc => [acc.reverse]
  | 0, rest, acc => [acc.reverse ++ rest]
  | fuel + 1, c :: rest, acc =>
    if sep.isPrefixOf (c :: rest) then
      acc.reverse :: pySplitAux sep fuel (List.drop sep.length (c :: rest)) []
    else
      pySplitAux sep fuel rest (c :: acc)

/-- Python `s.split(sep)` for a nonempty separator `sep` (every call site in
the source passes a nonempty literal separator; Python raises `ValueError`
on an empty one, a case the source never reaches). -/
def pySplit (sep s : String) : List String :=
  if sep.data = [] then [s]
  else (pySplitAux sep.data s.data.length s.data []).map String.mk

/-- Python `s[a:b]` for `0 <= a <= b` (the only slice shapes in the source):
characters at indices `a, ..., b-1`, clamped to the end of the string. -/
def pySlice (s : String) (a b : Nat) : String :=
  String.mk ((s.data.drop a).take (b - a))

/-- Python `len(s)` (all strings in play are ASCII, so the character count
of the model agrees with Python). -/
def pyLen (s : String) : Nat := s.data.length

/-- Python `sub in s` for a nonempty `sub`: containment of a substring. -/
def pyContains (s sub : String) : Bool := (pySplit sub s).length > 1

/-- Numeric value of a digit string (the argument is validated to consist
of decimal digits before this is applied). -/
def digitsToNat (l : List Char) : Nat :=
  l.foldl (fun a c => a * 10 + (c.toNat - 48)) 0

/-! ## Source helpers

`extract = lambda s: s.split(': ')[1]` (line 50 of the source): the second
field of the split on `": "`; `none` models the `IndexError` raised when the
label separator is absent. -/

def extract (s : String) : Option String := (pySplit ": " s)[1]?

/-- Error kinds for the exceptions the source raises deliberately
(`ValueError` with the respective messages). -/
inductive PittError where
  | invalidSubject
  | invalidTerm
  | invalidCourseNumber
  | courseNotFound
deriving Repr, DecidableEq

/-- A Python argument of type `Union[str, int]` (also used for the dynamic
key of `PittSubject.__getitem__`, whose non-`str` case in the source is any
non-string object; the integer is the representative the claims name). -/
inductive PyVal where
  | str (s : String)
  | int (n : Int)
deriving Repr, DecidableEq

/-- Python `str(x)` for the values of `PyVal` (`str` of an integer is its
decimal form, with a leading minus sign when negative). -/
def pyStrOf : PyVal → String
  | .str s => s
  | .int n => toString n

/-! ## Validators (lines 299-326 of the source) -/

/-- The prefix match performed by `re.compile('2\d\d[147]').match(term)`
(line 309/312): anchored at the start of the string only, so it succeeds
exactly when the string has at least four characters and its first four are
`2`, digit, digit, one of `1`, `4`, `7`.  (`\d` is modelled as an ASCII
digit; no input in the claims involves non-ASCII digits.) -/
def term_pattern_match (s : String) : Bool :=
  match s.data with
  | c0 :: c1 :: c2 :: c3 :: _ =>
    c0 = '2' && c1.isDigit && c2.isDigit && (c3 = '1' || c3 = '4' || c3 = '7')
  | _ => false

/-- `_validate_term` (lines 307-314): convert an integer argument to a
string, accept when the term regex matches a prefix, raise otherwise. -/
def validate_term (term : PyVal) : Except PittError String :=
  let t := pyStrOf term
  if term_pattern_match t then .ok t else .error .invalidTerm

/-- `_validate_course` (lines 317-326): convert an integer argument to a
string, left-pad with zeros to 4 characters when shorter, reject when
longer than 4 characters. -/
def validate_course (course : PyVal) : Except PittError String :=
  let c := pyStrOf course
  let course_length := pyLen c
  if course_length < 4 then
    .ok (String.mk (List.replicate (4 - course_length) '0') ++ c)
  else if course_length > 4 then .error .invalidCourseNumber
  else .ok c

/-! ## Calendar dates

`datetime.strptime(s, '%m/%d/%Y')` (lines 186-187): month/day/year with a
1-2 digit month in 1..12, a 1-2 digit day valid for the month, and an
exactly-4-digit year of at least 1 (the `datetime` constructor rejects
year 0 and out-of-range days). -/

structure Date where
  month : Nat
  day : Nat
  year : Nat
deriving Repr, DecidableEq

def is_leap (y : Nat) : Bool := (y % 4 = 0 && ¬ y % 100 = 0) || y % 400 = 0

def days_in_month (y m : Nat) : Nat :=
  if m = 2 then (if is_leap y then 29 else 28)
  else if m = 4 || m = 6 || m = 9 || m = 11 then 30
  else 31

def parse_mdY (s : String) : Option Date :=
  match pySplit "/" s with
  | [ms, ds, ys] =>
    if ms.data ≠ [] && ms.data.length ≤ 2 && ms.data.all Char.isDigit &&
       ds.data ≠ [] && ds.data.length ≤ 2 && ds.data.all Char.isDigit &&
       ys.data.length = 4 && ys.data.all Char.isDigit then
      let m := digitsToNat ms.data
      let d := digitsToNat ds.data
      let y := digitsToNat ys.data
      if 1 ≤ m && m ≤ 12 && 1 ≤ d && d ≤ days_in_month y m && 1 ≤ y then
        some ⟨m, d, y⟩
      else none
    else none
  | _ => none

/-! ## Extra details (lines 214-230 of the source)

The detail page fetched from a section URL is modelled, after the
`find('div', ...)` / sibling filtering of lines 220-221, as the list of
its sibling blocks.  For each block, `pullRight` is the result of the
navigation chain `x.find('div', {'class': 'pull-right'}).next_element
.next_element.next_element` of line 222 (`none` when a step of the chain
fails and raises), and `text` is the text content tested on line 228. -/

structure DetailBlock where
  pullRight : Option String
  text : String
deriving Repr, DecidableEq

/-- The mapping built on lines 223-229. -/
structure ExtraDetails where
  units : String
  description : String
  preq : String
  class_attributes : Option String
deriving Repr, DecidableEq

/-- Lines 222-230 after the network fetch: build the extra-details mapping
from the sibling blocks.  Returns the call result (`Except.error ()` models
an uncaught exception) together with the value the `_extra` cache holds
afterwards.  The source assigns `self._extra` (line 223) before indexing
`data[6]` (line 228), so a page with fewer than 7 blocks raises with the
base mapping already cached. -/
def build_extra (data : List DetailBlock) :
    Except Unit ExtraDetails × Option ExtraDetails :=
  match (data[2]?).bind (·.pullRight), (data[4]?).bind (·.pullRight),
        ((data[5]?).bind (·.pullRight)).bind extract with
  | some units, some description, some preq =>
    let base : ExtraDetails := ⟨units, description, preq, none⟩
    match data[6]? with
    | none => (.error (), some base)
    | some b6 =>
      if pyContains b6.text "Class Attributes" then
        match b6.pullRight with
        | some attr =>
          let full := { base with class_attributes := some attr }
          (.ok full, some full)
        | none => (.error (), some base)
      else (.ok base, some base)
  | _, _, _ => (.error (), none)

/-! ## The entity tree

The source holds parent back-references (`parent_subject`, `parent_course`)
and resolves `term` / `subject` / `course_number` through them.  An
inductive type cannot hold the cyclic parent pointer, so the embedding
flattens the resolution: each entity stores the values its property chain
would return (`none` models Python `None`).  No claim exercises the
three-way resolution itself. -/

structure PittSection where
  subject : Option String
  term : Option String
  section_ : String
  section_type : String
  number : String
  days : Option (List String)
  times : Option (List String)
  room : String
  instructor : String
  start_date : Date
  end_date : Date
  url : String
  extra : Option ExtraDetails
deriving Repr, DecidableEq

/-- Lines 176-180 (and their verbatim copy at lines 249-253): parse the
label-stripped days/times field into the `days` and `times` attributes.
Both are `None` when the field reads `TBA`; otherwise the field is split on
`" - "`, the first part unpacked (exactly two space-separated tokens, else
`ValueError`) into day-string and start time, the day-string cut into
`len // 2` two-character slices, and the times are start time plus the
second `" - "` part (`IndexError` when absent). -/
def parse_days_times (days_times : String) :
    Option (Option (List String) × Option (List String)) :=
  if days_times = "TBA" then some (none, none)
  else
    let parts := pySplit " - " days_times
    match pySplit " " (parts.headD "") with
    | [days, times] =>
      match parts[1]? with
      | some p1 =>
        some (some ((List.range (pyLen days / 2)).map fun i =>
                pySlice days (i * 2) (i * 2 + 2)),
              some [times, p1])
      | none => none
    | _ => none

/-- `PittSection.__init__` (lines 158-190) in the case `class_data is not
None`: parse the 6-line record of a link node.  `subject` and `term` are
the values the parent chain resolves to (see the flattening note above);
`none` models any exception escaping the constructor. -/
def PittSection.init (subject term : Option String) (class_section_url : String)
    (class_data : List String) : Option PittSection :=
  match (class_data[0]?).bind extract with
  | none => none
  | some info0 =>
    let class_info := pySplit " " info0
    match class_info[0]? with
    | none => none
    | some ci0 =>
      match pySplit "-" ci0 with
      | [sec, section_type] =>
        match class_info[1]? with
        | none => none
        | some ci1 =>
          let number := pySlice ci1 1 6
          match (class_data[2]?).bind extract with
          | none => none
          | some days_times =>
            match parse_days_times days_times with
            | none => none
            | some dt =>
              match (class_data[3]?).bind extract with
              | none => none
              | some room =>
                match (class_data[4]?).bind extract with
                | none => none
                | some instructor =>
                  match (class_data[5]?).bind extract with
                  | none => none
                  | some dates =>
                    let date_parts := pySplit " - " dates
                    match (date_parts[0]?).bind parse_mdY with
                    | none => none
                    | some start_date =>
                      match (date_parts[1]?).bind parse_mdY with
                      | none => none
                      | some end_date =>
                        some { subject, term, section_ := sec, section_type,
                               number, days := dt.1, times := dt.2, room,
                               instructor, start_date, end_date,
                               url := class_section_url, extra := none }
      | _ => none

/-- The `extra_details` property (lines 214-230).  `net` models the HTTP
client: the detail-page blocks that `requests.get` on a URL returns.  The
result is the property value (`Except.error ()` for an uncaught exception),
the section afterwards (its `_extra` cache possibly updated), and the
number of network calls issued. -/
def PittSection.extra_details (net : String → List DetailBlock)
    (s : PittSection) : Except Unit ExtraDetails × PittSection × Nat :=
  match s.extra with
  | some e => (.ok e, s, 0)
  | none =>
    let r := build_extra (net s.url)
    (r.1, { s with extra := r.2 }, 1)

structure PittCourse where
  subject : Option String
  term : Option String
  number : String
  sections : List PittSection
deriving Repr, DecidableEq

structure PittSubject where
  subject : String
  term : String
  _courses : List (String × PittCourse)
deriving Repr, DecidableEq

/-- The `courses` property (lines 66-69): the list of course-number keys in
insertion order (a Python 3.7+ dict preserves insertion order). -/
def PittSubject.courses (s : PittSubject) : List String :=
  s._courses.map Prod.fst

/-- Result of `PittSubject.__getitem__` (lines 59-64): a course, the
implicit Python `None` returned for a non-string key, or a raised
`ValueError`. -/
inductive GetItemResult where
  | found (c : PittCourse)
  | nonePy
  | error (e : PittError)
deriving Repr, DecidableEq

/-- `PittSubject.__getitem__` (lines 59-64): only a string key is
validated and looked up; the padded key must be literally present, else
`ValueError('Course ... not present in subject')`; any non-string key
falls through the `isinstance` guard and returns `None`. -/
def PittSubject.getitem (subj : PittSubject) (item : PyVal) : GetItemResult :=
  match item with
  | .str s =>
    match validate_course (.str s) with
    | .error e => .error e
    | .ok key =>
      match subj._courses.lookup key with
      | some c => .found c
      | none => .error .courseNotFound
  | .int _ => .nonePy

/-! ## The HTML extraction engine

A results document is modelled at the level of the container contents
(`soup.find('div', {'class': 'primary-head'}).parent.contents`, line 73):
the list of sibling nodes in document order.  A node is either a bare
navigable string or a tag; a tag carries whether it has a `class`
attribute, its optional `href` attribute, and its text content.
Note the whitespace filter of line 76, `any(child != i for i in
['\n', ' '])`, is vacuously true (no child equals both strings), so every
child reaches the `isinstance(child, Tag)` test; the embedding skips
exactly the non-tag children. -/

structure HtmlTag where
  hasClassAttr : Bool
  href : Option String
  text : String
deriving Repr, DecidableEq

inductive Node where
  | nav (s : String)
  | tag (t : HtmlTag)
deriving Repr, DecidableEq

/-- State of the subject-level scan (lines 74-91): the courses accumulated
so far (insertion-ordered, as in the Python dict) and the key of the
current course (`none` models `course = None`). -/
structure SubjSt where
  crs : List (String × PittCourse)
  cur : Option String
deriving Repr, DecidableEq

/-- Append a parsed section to the course stored under key `k` (the
`course.append(...)` of line 80 acting on the object held in the dict). -/
def append_at (crs : List (String × PittCourse)) (k : String)
    (sec : PittSection) : List (String × PittCourse) :=
  crs.map fun kv =>
    if kv.1 = k then (kv.1, { kv.2 with sections := kv.2.sections ++ [sec] })
    else kv

/-- The course-number token of a description node (lines 87-88):
`number, *_ = text.split(' - ')` then `number.split(' ')[1]` (`none`
models the `IndexError` when the first segment has no second token). -/
def desc_number (text : String) : Option String :=
  (pySplit " " ((pySplit " - " text).headD ""))[1]?

/-- One step of the subject-level scan (lines 75-91) on one child node.
A tag without a `class` attribute is a link node: read `href` (`KeyError`
when absent), build the section from the stripped, line-split text, and
append it to the current course (`AttributeError` on `None` when no
description node came first).  A tag with a `class` attribute and nonempty
text is a description node: compute the course-number token, create the
course on first appearance, and make it current.  Everything else is
skipped. -/
def subject_step (subject term : String) (st : SubjSt) (child : Node) :
    Option SubjSt :=
  match child with
  | .nav _ => some st
  | .tag t =>
    if t.hasClassAttr = false then
      match t.href with
      | none => none
      | some class_sections_url =>
        match PittSection.init (some subject) (some term) class_sections_url
            (pySplit "\n" (pyStrip t.text)) with
        | none => none
        | some sec =>
          match st.cur with
          | none => none
          | some k => some { st with crs := append_at st.crs k sec }
    else if t.text ≠ "" then
      match desc_number t.text with
      | none => none
      | some number =>
        if (st.crs.map Prod.fst).contains number then
          some { st with cur := some number }
        else
          some { crs := st.crs ++
                   [(number, { subject := some subject, term := some term,
                               number, sections := [] })],
                 cur := some number }
    else some st

/-- The scan loop over the container contents. -/
def parse_loop (subject term : String) : List Node → SubjSt → Option SubjSt
  | [], st => some st
  | child :: rest, st => do
    parse_loop subject term rest (← subject_step subject term st child)

/-- `PittSubject.parse_webpage` (lines 71-91) on the container contents of
a results document: run the scan starting from the subject's current
mapping with no current course. -/
def PittSubject.parse_webpage (subj : PittSubject) (contents : List Node) :
    Option PittSubject :=
  (parse_loop subj.subject subj.term contents ⟨subj._courses, none⟩).map
    fun st => { subj with _courses := st.crs }

/-! ## Serialization (`to_dict`) -/

/-- The mapping built by `PittSection.to_dict` (lines 269-287); `extra` is
present exactly when the method was called with `extra_details=True`. -/
structure SectionDict where
  subject : Option String
  term : Option String
  days : Option (List String)
  times : Option (List String)
  room : String
  instructor : String
  start_date : Date
  end_date : Date
  section_ : String
  section_type : String
  number : String
  extra : Option ExtraDetails
deriving Repr, DecidableEq

/-- `PittSection.to_dict` (lines 269-287).  With `extra_details=True` it
reads the `extra_details` property, which may fetch over `net` and may
raise; the cache update does not change the returned mapping, so the
method is modelled by its return value. -/
def PittSection.to_dict (net : String → List DetailBlock)
    (extra_details_flag : Bool) (s : PittSection) : Except Unit SectionDict :=
  let base : SectionDict :=
    { subject := s.subject, term := s.term, days := s.days, times := s.times,
      room := s.room, instructor := s.instructor, start_date := s.start_date,
      end_date := s.end_date, section_ := s.section_,
      section_type := s.section_type, number := s.number, extra := none }
  if extra_details_flag then
    match (PittSection.extra_details net s).1 with
    | .ok e => .ok { base with extra := some e }
    | .error e => .error e
  else .ok base

/-- A Python comprehension over a list whose element expression may raise:
elements are evaluated left to right and the first exception propagates. -/
def mapExcept (f : α → Except ε β) : List α → Except ε (List β)
  | [] => .ok []
  | a :: rest =>
    match f a with
    | .error e => .error e
    | .ok b =>
      match mapExcept f rest with
      | .error e => .error e
      | .ok bs => .ok (b :: bs)

/-- `PittCourse.to_dict` (lines 147-148): the list of the section
dictionaries in order (an exception from any section propagates). -/
def PittCourse.to_dict (net : String → List DetailBlock)
    (extra_details_flag : Bool) (c : PittCourse) : Except Unit (List SectionDict) :=
  mapExcept (PittSection.to_dict net extra_details_flag) c.sections

/-- `PittSubject.to_dict` (lines 93-94): the insertion-ordered mapping from
course-number key to that course's own `to_dict`. -/
def PittSubject.to_dict (net : String → List DetailBlock)
    (extra_details_flag : Bool) (subj : PittSubject) :
    Except Unit (List (String × List SectionDict)) :=
  mapExcept (fun kv =>
    match PittCourse.to_dict net extra_details_flag kv.2 with
    | .error e => .error e
    | .ok d => .ok (kv.1, d)) subj._courses

/-! ## General lemmas about the embedding -/

/-- Appending a string represented by its characters to another string
concatenates the character lists. -/
theorem string_mk_append_data (xs : List Char) (s : String) :
    (String.mk xs ++ s).data = xs ++ s.data := rfl

/-- Every value `_validate_course` accepts is a 4-character string. -/
theorem validate_course_ok_len (v : PyVal) (k : String)
    (h : validate_course v = .ok k) : pyLen k = 4 := by
  simp only [validate_course] at h
  split at h
  next hlt =>
    injection h with h
    subst h
    simp only [pyLen, string_mk_append_data, List.length_append,
      List.length_replicate] at *
    omega
  next hge =>
    split at h
    next => exact absurd h (by simp)
    next hngt =>
      injection h with h
      subst h
      simp only [pyLen] at *
      omega

/-! ## Claim C4 -/

/-- C4 counterexample: `_validate_term` accepts the 5-character string
`"21479"` and returns it unchanged, although it is not a 4-character term
code, because `re.match` only anchors the pattern at the start of the
string. -/
theorem c4_counterexample :
    validate_term (.str "21479") = .ok "21479" ∧ pyLen "21479" ≠ 4 :=
  ⟨rfl, by decide⟩

/-- C4 (amended): `_validate_term` converts its argument to a string and
returns it unchanged exactly when some valid 4-character term code
(`2`, digit, digit, one of `1`/`4`/`7`) is a prefix of it; otherwise it
fails with `InvalidTerm`.  In particular every valid 4-character code is
accepted unchanged, but so is any longer string extending one. -/
theorem c4_validate_term (term : PyVal) :
    (validate_term term = .ok (pyStrOf term) ∨
      validate_term term = .error PittError.invalidTerm) ∧
    (validate_term term = .ok (pyStrOf term) ↔
      ∃ code rest : List Char, (pyStrOf term).data = code ++ rest ∧
        code.length = 4 ∧ term_pattern_match (String.mk code) = true) := by
  constructor
  · simp only [validate_term]
    split
    · exact Or.inl rfl
    · exact Or.inr rfl
  · constructor
    · intro h
      have hp : term_pattern_match (pyStrOf term) = true := by
        by_contra hfalse
        simp only [validate_term, Bool.not_eq_true] at h hfalse
        rw [hfalse] at h
        simp at h
      unfold term_pattern_match at hp
      rcases hd : (pyStrOf term).data with _ | ⟨c0, _ | ⟨c1, _ | ⟨c2, _ | ⟨c3, tl⟩⟩⟩⟩ <;>
        rw [hd] at hp <;> simp only [] at hp
      · exact absurd hp (by simp)
      · exact absurd hp (by simp)
      · exact absurd hp (by simp)
      · exact absurd hp (by simp)
      · refine ⟨[c0, c1, c2, c3], tl, by simp [hd], rfl, ?_⟩
        unfold term_pattern_match
        simpa using hp
    · rintro ⟨code, rest, hcat, hlen, hpat⟩
      have hp : term_pattern_match (pyStrOf term) = true := by
        rcases code with _ | ⟨c0, _ | ⟨c1, _ | ⟨c2, _ | ⟨c3, _ | ⟨c4, tl⟩⟩⟩⟩⟩ <;>
          simp only [List.length] at hlen <;> try omega
        unfold term_pattern_match at hpat ⊢
        rw [hcat]
        simpa using hpat
      simp [validate_term, hp]

/-! ## Claim C5 -/

/-- C5: for every input whose string form has at most 4 characters,
`_validate_course` returns that string left-padded with zeros to exactly
4 characters; every longer input fails with `InvalidCourseNumber`. -/
theorem c5_validate_course (course : PyVal) :
    (pyLen (pyStrOf course) ≤ 4 →
      validate_course course =
        .ok (String.mk (List.replicate (4 - pyLen (pyStrOf course)) '0') ++
          pyStrOf course) ∧
      pyLen (String.mk (List.replicate (4 - pyLen (pyStrOf course)) '0') ++
        pyStrOf course) = 4) ∧
    (4 < pyLen (pyStrOf course) →
      validate_course course = .error PittError.invalidCourseNumber) := by
  constructor
  · intro hle
    constructor
    · simp only [validate_course]
      split
      · rfl
      · split
        · omega
        · have h4 : pyLen (pyStrOf course) = 4 := by omega
          rw [h4]
          rfl
    · simp only [pyLen, string_mk_append_data, List.length_append,
        List.length_replicate]
      simp only [pyLen] at hle
      omega
  · intro hgt
    simp only [validate_course]
    split
    · omega
    · rfl

/-- C5 witness: the concrete examples of the claim. -/
theorem c5_validate_course_witness :
    validate_course (.str "5") = .ok "0005" ∧
    validate_course (.str "101") = .ok "0101" ∧
    validate_course (.str "1020") = .ok "1020" ∧
    validate_course (.str "12345") = .error PittError.invalidCourseNumber :=
  ⟨(((c5_validate_course (.str "5")).1 (by decide)).1).trans rfl,
   (((c5_validate_course (.str "101")).1 (by decide)).1).trans rfl,
   (((c5_validate_course (.str "1020")).1 (by decide)).1).trans rfl,
   (c5_validate_course (.str "12345")).2 (by decide)⟩

/-! ## Claim C9 -/

/-- C9: `PittSubject.__getitem__` applied to a non-string key (here, any
integer) returns Python `None`: the `isinstance` guard has no `else`
branch, so no validation, lookup or `CourseNotFound` error happens. -/
theorem c9_getitem_nonstring (subj : PittSubject) (n : Int) :
    PittSubject.getitem subj (.int n) = .nonePy := rfl

/-! ## Parsing a link node: days and times -/

/-- In a successfully constructed section, the `days` and `times`
attributes are exactly what `parse_days_times` yields on the
label-stripped days/times field (line 2 of the record). -/
theorem init_days_times (subject term : Option String) (url : String)
    (class_data : List String) (s : PittSection) (dt : String)
    (hfield : (class_data[2]?).bind extract = some dt)
    (hinit : PittSection.init subject term url class_data = some s) :
    parse_days_times dt = some (s.days, s.times) := by
  unfold PittSection.init at hinit
  split at hinit <;> try exact Option.noConfusion hinit
  try simp only [] at hinit
  split at hinit <;> try exact Option.noConfusion hinit
  try simp only [] at hinit
  split at hinit <;> try exact Option.noConfusion hinit
  try simp only [] at hinit
  split at hinit <;> try exact Option.noConfusion hinit
  try simp only [] at hinit
  split at hinit <;> try exact Option.noConfusion hinit
  next x5 days_times hfield2 =>
  try simp only [] at hinit
  split at hinit <;> try exact Option.noConfusion hinit
  next x6 dtp hdtp =>
  try simp only [] at hinit
  split at hinit <;> try exact Option.noConfusion hinit
  try simp only [] at hinit
  split at hinit <;> try exact Option.noConfusion hinit
  try simp only [] at hinit
  split at hinit <;> try exact Option.noConfusion hinit
  try simp only [] at hinit
  split at hinit <;> try exact Option.noConfusion hinit
  try simp only [] at hinit
  split at hinit <;> try exact Option.noConfusion hinit
  rw [hfield2] at hfield
  injection hfield with hfield
  subst hfield
  injection hinit with hinit
  subst hinit
  simpa using hdtp

/-! ## Claim C6 -/

/-- C6: a link node whose days/times field (after label stripping) equals
`TBA` parses into a section with `days = None` and `times = None`. -/
theorem c6_tba_days_none (subject term : Option String) (url : String)
    (class_data : List String) (s : PittSection)
    (hfield : (class_data[2]?).bind extract = some "TBA")
    (hinit : PittSection.init subject term url class_data = some s) :
    s.days = none ∧ s.times = none := by
  have h := init_days_times subject term url class_data s "TBA" hfield hinit
  have h2 : parse_days_times "TBA" = some (none, none) := rfl
  rw [h2] at h
  injection h with h
  rw [Prod.mk.injEq] at h
  exact ⟨h.1.symm, h.2.symm⟩

def c6_class_data : List String :=
  ["Lecture: 1001-LEC S23456", "x", "Days: TBA", "Room: TBA",
   "Instructor: Staff", "Dates: 01/06/2020 - 04/24/2020"]

def dummy_section : PittSection :=
  { subject := none, term := none, section_ := "", section_type := "",
    number := "", days := none, times := none, room := "", instructor := "",
    start_date := ⟨1, 1, 2000⟩, end_date := ⟨1, 1, 2000⟩, url := "",
    extra := none }

def c6_section : PittSection :=
  (PittSection.init (some "CS") (some "2194") "u" c6_class_data).getD
    dummy_section

/-- C6 witness: a concrete TBA link node record. -/
theorem c6_tba_days_none_witness :
    c6_section.days = none ∧ c6_section.times = none :=
  c6_tba_days_none (some "CS") (some "2194") "u" c6_class_data c6_section
    rfl rfl

/-! ## Claim C1 -/

def c1_class_data : List String :=
  ["Lecture: 1000-LEC S12345", "x", "Days: MW 2:00PM - 3:15PM", "Room: 205",
   "Instructor: Smith", "Dates: 01/06/2020 - 04/24/2020"]

/-- C1 counterexample: on the raw field carrying day-string `MW` and time
range `2:00PM - 3:15PM`, the constructor chunks the day-string into
2-character slices, so `days` is `["MW"]` - a single two-character chunk -
and not `["M", "W"]`. -/
theorem c1_counterexample :
    ((PittSection.init (some "CS") (some "2194") "u" c1_class_data).map
        fun s => (s.days, s.times)) =
      some (some ["MW"], some ["2:00PM", "3:15PM"]) ∧
    (some ["MW"] : Option (List String)) ≠ some ["M", "W"] :=
  ⟨rfl, by decide⟩

/-- C1 (amended): for every link node whose label-stripped days/times field
is `MW 2:00PM - 3:15PM`, the parsed section has `days == ["MW"]` (the
day-string is cut into `len // 2` two-character chunks, so `MW` stays one
chunk) and `times == ["2:00PM", "3:15PM"]`. -/
theorem c1_days_times (subject term : Option String) (url : String)
    (class_data : List String) (s : PittSection)
    (hfield : (class_data[2]?).bind extract = some "MW 2:00PM - 3:15PM")
    (hinit : PittSection.init subject term url class_data = some s) :
    s.days = some ["MW"] ∧ s.times = some ["2:00PM", "3:15PM"] := by
  have h := init_days_times subject term url class_data s
    "MW 2:00PM - 3:15PM" hfield hinit
  have h2 : parse_days_times "MW 2:00PM - 3:15PM" =
      some (some ["MW"], some ["2:00PM", "3:15PM"]) := rfl
  rw [h2] at h
  injection h with h
  rw [Prod.mk.injEq] at h
  exact ⟨h.1.symm, h.2.symm⟩

def c1_section : PittSection :=
  (PittSection.init (some "CS") (some "2194") "u" c1_class_data).getD
    dummy_section

/-- C1 witness: the concrete link node of the claim. -/
theorem c1_days_times_witness :
    c1_section.days = some ["MW"] ∧
    c1_section.times = some ["2:00PM", "3:15PM"] :=
  c1_days_times (some "CS") (some "2194") "u" c1_class_data c1_section
    rfl rfl

/-! ## Claim C10 -/

/-- The two-character chunks tile the even-length prefix of the list they
are cut from. -/
theorem chunk_join (xs : List Char) :
    ∀ k, 2 * k ≤ xs.length →
      ((List.range k).map fun i => (xs.drop (i * 2)).take 2).flatten =
        xs.take (2 * k) := by
  intro k
  induction k with
  | zero => intro _; simp
  | succ k ih =>
    intro hk
    rw [List.range_succ, List.map_append, List.flatten_append, ih (by omega)]
    simp only [List.map_cons, List.map_nil, List.flatten_cons,
      List.flatten_nil, List.append_nil]
    have h2 : 2 * (k + 1) = 2 * k + 2 := by ring
    rw [h2, List.take_add, Nat.mul_comm k 2]

/-- C10: for every non-TBA days/times field whose first `" - "` segment
splits into day-string `d` and a start time, the parsed `days` list has
exactly `len(d) // 2` entries, each a two-character chunk, and together the
chunks cover only the first `2 * (len(d) // 2)` characters of `d` - so for
a day-string of odd length the final character is silently discarded. -/
theorem c10_odd_day_string (subject term : Option String) (url : String)
    (class_data : List String) (s : PittSection) (dt d t : String)
    (hfield : (class_data[2]?).bind extract = some dt)
    (hinit : PittSection.init subject term url class_data = some s)
    (hne : dt ≠ "TBA")
    (hsplit : pySplit " " ((pySplit " - " dt).headD "") = [d, t]) :
    ∃ l, s.days = some l ∧
      l.length = pyLen d / 2 ∧
      (∀ c ∈ l, pyLen c = 2) ∧
      (l.map String.data).flatten = d.data.take (2 * (pyLen d / 2)) ∧
      (pyLen d % 2 = 1 → 2 * l.length + 1 = pyLen d) := by
  have h := init_days_times subject term url class_data s dt hfield hinit
  unfold parse_days_times at h
  rw [if_neg hne] at h
  simp only [] at h
  rw [hsplit] at h
  simp only [] at h
  cases hp : (pySplit " - " dt)[1]? with
  | none => rw [hp] at h; exact Option.noConfusion h
  | some p1 =>
    rw [hp] at h
    injection h with h
    rw [Prod.mk.injEq] at h
    refine ⟨(List.range (pyLen d / 2)).map fun i =>
      pySlice d (i * 2) (i * 2 + 2), h.1.symm, by simp, ?_, ?_, by simp; omega⟩
    · intro c hc
      simp only [List.mem_map, List.mem_range] at hc
      obtain ⟨i, hi, rfl⟩ := hc
      simp only [pyLen, pySlice, List.length_take, List.length_drop]
      simp only [pyLen] at hi
      omega
    · rw [List.map_map]
      have hfun : (String.data ∘ fun i => pySlice d (i * 2) (i * 2 + 2)) =
          fun i => (d.data.drop (i * 2)).take 2 := by
        funext i
        simp [pySlice, Function.comp, Nat.add_sub_cancel_left]
      rw [hfun]
      have hcov : 2 * (pyLen d / 2) ≤ d.data.length := by
        simp only [pyLen]; omega
      exact chunk_join d.data (pyLen d / 2) hcov

def c10_class_data : List String :=
  ["Lecture: 1000-LEC S12345", "x", "Days: MWF 2:00PM - 3:15PM", "Room: 205",
   "Instructor: Smith", "Dates: 01/06/2020 - 04/24/2020"]

def c10_section : PittSection :=
  (PittSection.init (some "CS") (some "2194") "u" c10_class_data).getD
    dummy_section

/-- C10 witness: a concrete link node with the odd day-string `MWF`; the
parsed list is one chunk of two characters and the trailing `F` is
dropped. -/
theorem c10_odd_day_string_witness :
    ∃ l, c10_section.days = some l ∧
      l.length = pyLen "MWF" / 2 ∧
      (∀ c ∈ l, pyLen c = 2) ∧
      (l.map String.data).flatten = "MWF".data.take (2 * (pyLen "MWF" / 2)) ∧
      (pyLen "MWF" % 2 = 1 → 2 * l.length + 1 = pyLen "MWF") :=
  c10_odd_day_string (some "CS") (some "2194") "u" c10_class_data c10_section
    "MWF 2:00PM - 3:15PM" "MWF" "2:00PM" rfl rfl (by decide) rfl

/-! ## Claim C8 -/

/-- When the extra-details build succeeds, the value it caches is exactly
the value it returns. -/
theorem build_extra_ok_cache (data : List DetailBlock) (e : ExtraDetails)
    (h : (build_extra data).1 = .ok e) : (build_extra data).2 = some e := by
  unfold build_extra at h ⊢
  cases hu : (data[2]?).bind (fun b => b.pullRight) with
  | none => try rw [hu] at h
            exact Except.noConfusion h
  | some units =>
  try rw [hu] at h
  cases hd : (data[4]?).bind (fun b => b.pullRight) with
  | none => try rw [hd] at h
            exact Except.noConfusion h
  | some description =>
  try rw [hd] at h
  cases hq : ((data[5]?).bind (fun b => b.pullRight)).bind extract with
  | none => try rw [hq] at h
            exact Except.noConfusion h
  | some preq =>
  try rw [hq] at h
  simp only [] at h ⊢
  cases h6 : data[6]? with
  | none => try rw [h6] at h
            exact Except.noConfusion h
  | some b6 =>
  try rw [h6] at h
  simp only [] at h ⊢
  by_cases hca : pyContains b6.text "Class Attributes" = true
  · rw [if_pos hca] at h ⊢
    cases hpr : b6.pullRight with
    | none => try rw [hpr] at h
              exact Except.noConfusion h
    | some attr =>
      try rw [hpr] at h
      injection h with h
      exact congrArg Option.some h
  · rw [if_neg hca] at h ⊢
    injection h with h
    exact congrArg Option.some h

/-- C8: on a section whose cache is empty, a first successful read of
`extra_details` issues exactly one network call, and a second read on the
resulting section issues none and returns the exact cached mapping. -/
theorem c8_extra_details_cached (net : String → List DetailBlock)
    (s : PittSection) (e : ExtraDetails)
    (hcache : s.extra = none)
    (hok : (PittSection.extra_details net s).1 = .ok e) :
    (PittSection.extra_details net s).2.2 = 1 ∧
    PittSection.extra_details net (PittSection.extra_details net s).2.1 =
      (.ok e, (PittSection.extra_details net s).2.1, 0) := by
  have hok2 : (build_extra (net s.url)).1 = .ok e := by
    unfold PittSection.extra_details at hok
    rw [hcache] at hok
    exact hok
  have hc := build_extra_ok_cache (net s.url) e hok2
  have hsec : (PittSection.extra_details net s).2.1 =
      { s with extra := (build_extra (net s.url)).2 } := by
    unfold PittSection.extra_details
    rw [hcache]
  refine ⟨?_, ?_⟩
  · unfold PittSection.extra_details
    rw [hcache]
  · rw [hsec, hc]
    rfl

def c8_page : List DetailBlock :=
  [⟨none, ""⟩, ⟨none, ""⟩, ⟨some "3 units", ""⟩, ⟨none, ""⟩,
   ⟨some "A course.", ""⟩, ⟨some "Prereq: CS 0007", ""⟩,
   ⟨some "attrs", "Class Attributes: yes"⟩]

def c8_net : String → List DetailBlock := fun _ => c8_page

def c8_section : PittSection :=
  { subject := none, term := none, section_ := "1000", section_type := "LEC",
    number := "12345", days := none, times := none, room := "R",
    instructor := "I", start_date := ⟨1, 6, 2020⟩, end_date := ⟨4, 24, 2020⟩,
    url := "u", extra := none }

def c8_extra : ExtraDetails := ⟨"3 units", "A course.", "CS 0007", some "attrs"⟩

/-- C8 witness: a concrete uncached section and detail page. -/
theorem c8_extra_details_cached_witness :
    (PittSection.extra_details c8_net c8_section).2.2 = 1 ∧
    PittSection.extra_details c8_net
        (PittSection.extra_details c8_net c8_section).2.1 =
      (.ok c8_extra, (PittSection.extra_details c8_net c8_section).2.1, 0) :=
  c8_extra_details_cached c8_net c8_section c8_extra rfl rfl

/-! ## Claim C7 -/

/-- Structure of the subject-level `to_dict` comprehension over an
arbitrary course list. -/
theorem subject_to_dict_aux (net : String → List DetailBlock) (flag : Bool) :
    ∀ (cs : List (String × PittCourse)) (d : List (String × List SectionDict)),
      mapExcept (fun kv =>
        match PittCourse.to_dict net flag kv.2 with
        | .error e => .error e
        | .ok x => .ok (kv.1, x)) cs = .ok d →
      d.map Prod.fst = cs.map Prod.fst ∧
      List.Forall₂ (fun kv p => p.1 = kv.1 ∧
        PittCourse.to_dict net flag kv.2 = .ok p.2) cs d := by
  intro cs
  induction cs with
  | nil =>
    intro d h
    unfold mapExcept at h
    injection h with h
    subst h
    exact ⟨rfl, List.Forall₂.nil⟩
  | cons kv rest ih =>
    intro d h
    unfold mapExcept at h
    cases hf : PittCourse.to_dict net flag kv.2 with
    | error err =>
      rw [hf] at h
      exact Except.noConfusion h
    | ok lst =>
      rw [hf] at h
      cases hrest : mapExcept (fun kv =>
          match PittCourse.to_dict net flag kv.2 with
          | .error e => .error e
          | .ok x => .ok (kv.1, x)) rest with
      | error err =>
        rw [hrest] at h
        exact Except.noConfusion h
      | ok xs =>
        rw [hrest] at h
        injection h with h
        subst h
        obtain ⟨h1, h2⟩ := ih xs hrest
        exact ⟨by simp [h1], List.Forall₂.cons ⟨rfl, hf⟩ h2⟩

/-- C7: on every subject, a successful `to_dict` yields a mapping whose
keys, in order, are exactly the `courses` key list of the subject, and
whose value at each key is that course's own `to_dict` with the same
`extra_details` flag. -/
theorem c7_to_dict_roundtrip (net : String → List DetailBlock) (flag : Bool)
    (subj : PittSubject) (d : List (String × List SectionDict))
    (h : PittSubject.to_dict net flag subj = .ok d) :
    d.map Prod.fst = subj.courses ∧
    List.Forall₂ (fun kv p => p.1 = kv.1 ∧
      PittCourse.to_dict net flag kv.2 = .ok p.2) subj._courses d := by
  have haux := subject_to_dict_aux net flag subj._courses d h
  exact ⟨haux.1, haux.2⟩

def c7_net : String → List DetailBlock := fun _ => []

def c7_subject : PittSubject :=
  ⟨"CS", "2194",
   [("0007", { subject := some "CS", term := some "2194", number := "0007",
               sections := [] })]⟩

/-- C7 witness: a concrete one-course subject. -/
theorem c7_to_dict_roundtrip_witness :
    ([("0007", ([] : List SectionDict))].map Prod.fst = c7_subject.courses) ∧
    List.Forall₂ (fun kv p => p.1 = kv.1 ∧
        PittCourse.to_dict c7_net false kv.2 = .ok p.2) c7_subject._courses
      [("0007", ([] : List SectionDict))] :=
  c7_to_dict_roundtrip c7_net false c7_subject [("0007", [])] rfl

/-! ## Claim C2 -/

/-- Appending a section to the course under a key leaves the key list of
the mapping unchanged. -/
theorem append_at_keys (crs : List (String × PittCourse)) (k : String)
    (sec : PittSection) :
    (append_at crs k sec).map Prod.fst = crs.map Prod.fst := by
  unfold append_at
  induction crs with
  | nil => rfl
  | cons kv rest ih =>
    simp only [List.map_cons, ih]
    by_cases hk : kv.1 = k <;> simp [hk]

/-- One scan step never duplicates a course key. -/
theorem subject_step_nodup (subject term : String) (st st2 : SubjSt)
    (child : Node) (hstep : subject_step subject term st child = some st2)
    (hnd : (st.crs.map Prod.fst).Nodup) :
    (st2.crs.map Prod.fst).Nodup := by
  cases child with
  | nav s =>
    injection hstep with hstep
    subst hstep
    exact hnd
  | tag t =>
    unfold subject_step at hstep
    simp only [] at hstep
    split at hstep
    · -- link node branch
      split at hstep <;> try exact Option.noConfusion hstep
      split at hstep <;> try exact Option.noConfusion hstep
      split at hstep <;> try exact Option.noConfusion hstep
      injection hstep with hstep
      subst hstep
      simpa [append_at_keys] using hnd
    · split at hstep
      · -- description node branch
        split at hstep <;> try exact Option.noConfusion hstep
        next number hnum =>
        split at hstep
        · injection hstep with hstep
          subst hstep
          exact hnd
        · next hmem =>
          injection hstep with hstep
          subst hstep
          simp only [List.map_append, List.map_cons, List.map_nil]
          rw [List.nodup_append]
          refine ⟨hnd, List.nodup_singleton number, ?_⟩
          intro a ha hmm
          simp only [List.mem_singleton] at hmm
          subst hmm
          exact hmem (by simpa [List.elem_iff] using ha)
      · -- empty-text description node
        injection hstep with hstep
        subst hstep
        exact hnd

/-- The whole scan never duplicates a course key. -/
theorem parse_loop_nodup (subject term : String) :
    ∀ (nodes : List Node) (st st2 : SubjSt),
      parse_loop subject term nodes st = some st2 →
      (st.crs.map Prod.fst).Nodup → (st2.crs.map Prod.fst).Nodup := by
  intro nodes
  induction nodes with
  | nil =>
    intro st st2 h hnd
    unfold parse_loop at h
    injection h with h
    subst h
    exact hnd
  | cons child rest ih =>
    intro st st2 h hnd
    unfold parse_loop at h
    cases hstep : subject_step subject term st child with
    | none => rw [hstep] at h; exact Option.noConfusion h
    | some st1 =>
      rw [hstep] at h
      exact ih st1 st2 h (subject_step_nodup subject term st st1 child hstep hnd)

def c2_link_text : String :=
  "Lecture: 1000-LEC S12345\nx\nDays: TBA\nRoom: 205\nInstructor: Smith\nDates: 01/06/2020 - 04/24/2020"

def c2_doc : List Node :=
  [.tag ⟨true, none, "CS 5 - Short Course"⟩,
   .tag ⟨false, some "http://x/1", c2_link_text⟩]

/-- C2 counterexample: a results document whose description node reads
`CS 5 - Short Course` parses into a mapping keyed by the raw token `5` -
not zero-padded to 4 characters - and the lookup of the present course
number `5` through `__getitem__` fails with `CourseNotFound`, because the
lookup pads its argument to `0005` while the parse stored the key
unpadded. -/
theorem c2_counterexample :
    ((PittSubject.parse_webpage ⟨"CS", "2194", []⟩ c2_doc).map
        PittSubject.courses) = some ["5"] ∧
    ((PittSubject.parse_webpage ⟨"CS", "2194", []⟩ c2_doc).map
        fun subj => PittSubject.getitem subj (.str "5")) =
      some (.error .courseNotFound) ∧
    pyLen "5" ≠ 4 :=
  ⟨rfl, rfl, by decide⟩

/-- C2 (amended): after any successful parse from an empty mapping the
course keys are unique, but they are the course-number tokens exactly as
they appear in the document, with no zero-padding applied.  A lookup via
`__getitem__` finds a course exactly under the zero-padded form of its
argument, so an unpadded query finds a course if and only if the stored
key is already the 4-character padded form; every course reachable through
`__getitem__` sits under a 4-character key. -/
theorem c2_course_keys (subj subj2 : PittSubject) (contents : List Node)
    (hempty : subj._courses = [])
    (hparse : PittSubject.parse_webpage subj contents = some subj2) :
    subj2.courses.Nodup ∧
    (∀ q k c, validate_course (.str q) = .ok k →
      subj2._courses.lookup k = some c →
      PittSubject.getitem subj2 (.str q) = .found c) ∧
    (∀ q c, PittSubject.getitem subj2 (.str q) = .found c →
      ∃ k, pyLen k = 4 ∧ subj2._courses.lookup k = some c) := by
  refine ⟨?_, ?_, ?_⟩
  · unfold PittSubject.parse_webpage at hparse
    cases hloop : parse_loop subj.subject subj.term contents
        ⟨subj._courses, none⟩ with
    | none => rw [hloop] at hparse; exact Option.noConfusion hparse
    | some stf =>
      rw [hloop] at hparse
      injection hparse with hparse
      subst hparse
      have hnd0 : ((⟨subj._courses, none⟩ : SubjSt).crs.map Prod.fst).Nodup := by
        simp only [hempty]
        exact List.nodup_nil
      exact parse_loop_nodup subj.subject subj.term contents _ stf hloop hnd0
  · intro q k c hv hl
    unfold PittSubject.getitem
    simp only []
    rw [hv]
    simp only []
    rw [hl]
  · intro q c hg
    unfold PittSubject.getitem at hg
    simp only [] at hg
    cases hv : validate_course (.str q) with
    | error e =>
      rw [hv] at hg
      exact GetItemResult.noConfusion hg
    | ok k =>
      rw [hv] at hg
      simp only [] at hg
      cases hl : subj2._courses.lookup k with
      | none =>
        rw [hl] at hg
        exact GetItemResult.noConfusion hg
      | some c2 =>
        rw [hl] at hg
        injection hg with hg
        exact ⟨k, validate_course_ok_len (.str q) k hv, hg ▸ hl⟩

def c2w_doc : List Node :=
  [.tag ⟨true, none, "CS 0007 - Intro to Computing"⟩,
   .tag ⟨false, some "http://x/1", c2_link_text⟩]

def dummy_subject : PittSubject := ⟨"", "", []⟩

def c2w_subject : PittSubject :=
  (PittSubject.parse_webpage ⟨"CS", "2194", []⟩ c2w_doc).getD dummy_subject

def dummy_course : PittCourse := ⟨none, none, "", []⟩

def c2w_course : PittCourse :=
  (c2w_subject._courses.lookup "0007").getD dummy_course

/-- C2 witness: a document whose token is already 4 characters; the keys
are unique and the unpadded lookup `7` finds the course. -/
theorem c2_course_keys_witness :
    c2w_subject.courses.Nodup ∧
    PittSubject.getitem c2w_subject (.str "7") = .found c2w_course :=
  ⟨(c2_course_keys ⟨"CS", "2194", []⟩ c2w_subject c2w_doc rfl rfl).1,
   (c2_course_keys ⟨"CS", "2194", []⟩ c2w_subject c2w_doc rfl rfl).2.1
     "7" "0007" c2w_course rfl rfl⟩

/-! ## Claim C3 -/

/-- Unfolding of the scan loop on a first node. -/
theorem parse_loop_cons (subject term : String) (child : Node)
    (rest : List Node) (st : SubjSt) :
    parse_loop subject term (child :: rest) st =
      (subject_step subject term st child).bind
        (parse_loop subject term rest) := rfl

/-- Unfolding of the scan loop on an exhausted document. -/
theorem parse_loop_nil (subject term : String) (st : SubjSt) :
    parse_loop subject term [] st = some st := rfl

/-- C3 (amended): a results document consisting of a description node with
course-number token `n1`, two link nodes, a description node with a
distinct course-number token `n2`, and one link node parses into a subject
with exactly the two courses `[n1, n2]`, in document order, whose stored
sections are exactly the parses of the link nodes in document order -
`[sec1, sec2]` for the first course and `[sec3]` for the second - hence
with section counts `[2, 1]`.  (Without the distinctness of the two tokens
the second description node reuses the first course and the claim fails,
see the counterexample.) -/
theorem c3_two_courses (subject term : String) (d1 d2 u1 u2 u3 t1 t2 t3 : String)
    (n1 n2 : String) (sec1 sec2 sec3 : PittSection) (subj2 : PittSubject)
    (hd1 : d1 ≠ "") (hd2 : d2 ≠ "")
    (hn1 : desc_number d1 = some n1) (hn2 : desc_number d2 = some n2)
    (hnn : n1 ≠ n2)
    (hinit1 : PittSection.init (some subject) (some term) u1
      (pySplit "\n" (pyStrip t1)) = some sec1)
    (hinit2 : PittSection.init (some subject) (some term) u2
      (pySplit "\n" (pyStrip t2)) = some sec2)
    (hinit3 : PittSection.init (some subject) (some term) u3
      (pySplit "\n" (pyStrip t3)) = some sec3)
    (hparse : PittSubject.parse_webpage ⟨subject, term, []⟩
      [Node.tag ⟨true, none, d1⟩, Node.tag ⟨false, some u1, t1⟩,
       Node.tag ⟨false, some u2, t2⟩, Node.tag ⟨true, none, d2⟩,
       Node.tag ⟨false, some u3, t3⟩] = some subj2) :
    subj2.courses = [n1, n2] ∧
    subj2._courses.map (fun kv => kv.2.sections) = [[sec1, sec2], [sec3]] ∧
    subj2._courses.map (fun kv => kv.2.sections.length) = [2, 1] := by
  have hnn2 : n2 ≠ n1 := Ne.symm hnn
  have hs1 : subject_step subject term ⟨[], none⟩ (Node.tag ⟨true, none, d1⟩) =
      some ⟨[(n1, ⟨some subject, some term, n1, []⟩)], some n1⟩ := by
    simp [subject_step, hd1, hn1]
  have hs2 : subject_step subject term
      ⟨[(n1, ⟨some subject, some term, n1, []⟩)], some n1⟩
      (Node.tag ⟨false, some u1, t1⟩) =
      some ⟨[(n1, ⟨some subject, some term, n1, [sec1]⟩)], some n1⟩ := by
    simp [subject_step, hinit1, append_at]
  have hs3 : subject_step subject term
      ⟨[(n1, ⟨some subject, some term, n1, [sec1]⟩)], some n1⟩
      (Node.tag ⟨false, some u2, t2⟩) =
      some ⟨[(n1, ⟨some subject, some term, n1, [sec1, sec2]⟩)], some n1⟩ := by
    simp [subject_step, hinit2, append_at]
  have hs4 : subject_step subject term
      ⟨[(n1, ⟨some subject, some term, n1, [sec1, sec2]⟩)], some n1⟩
      (Node.tag ⟨true, none, d2⟩) =
      some ⟨[(n1, ⟨some subject, some term, n1, [sec1, sec2]⟩),
             (n2, ⟨some subject, some term, n2, []⟩)], some n2⟩ := by
    simp [subject_step, hd2, hn2, hnn2]
  have hs5 : subject_step subject term
      ⟨[(n1, ⟨some subject, some term, n1, [sec1, sec2]⟩),
        (n2, ⟨some subject, some term, n2, []⟩)], some n2⟩
      (Node.tag ⟨false, some u3, t3⟩) =
      some ⟨[(n1, ⟨some subject, some term, n1, [sec1, sec2]⟩),
             (n2, ⟨some subject, some term, n2, [sec3]⟩)], some n2⟩ := by
    simp [subject_step, hinit3, append_at, hnn]
  replace hparse : (parse_loop subject term
      [Node.tag ⟨true, none, d1⟩, Node.tag ⟨false, some u1, t1⟩,
       Node.tag ⟨false, some u2, t2⟩, Node.tag ⟨true, none, d2⟩,
       Node.tag ⟨false, some u3, t3⟩] ⟨[], none⟩).map
      (fun st => ({ subject := subject, term := term,
                    _courses := st.crs } : PittSubject)) = some subj2 := hparse
  rw [parse_loop_cons, hs1, Option.some_bind'] at hparse
  rw [parse_loop_cons, hs2, Option.some_bind'] at hparse
  rw [parse_loop_cons, hs3, Option.some_bind'] at hparse
  rw [parse_loop_cons, hs4, Option.some_bind'] at hparse
  rw [parse_loop_cons, hs5, Option.some_bind'] at hparse
  rw [parse_loop_nil, Option.map_some'] at hparse
  injection hparse with hparse
  subst hparse
  exact ⟨rfl, rfl, rfl⟩

def c3_same_doc : List Node :=
  [.tag ⟨true, none, "CS 0007 - Intro to Computing"⟩,
   .tag ⟨false, some "http://x/1", c2_link_text⟩,
   .tag ⟨false, some "http://x/2", c2_link_text⟩,
   .tag ⟨true, none, "CS 0007 - Intro to Computing"⟩,
   .tag ⟨false, some "http://x/3", c2_link_text⟩]

/-- C3 counterexample: a document with 2 description nodes followed by 2
and 1 link nodes where both description nodes carry the same course-number
token parses into ONE course with 3 sections, not 2 courses with section
counts [2, 1], because the second description node reuses the course
created by the first. -/
theorem c3_counterexample :
    ((PittSubject.parse_webpage ⟨"CS", "2194", []⟩ c3_same_doc).map
        fun s => (s.courses, s._courses.map fun kv => kv.2.sections.length)) =
      some (["0007"], [3]) := rfl

def c3_doc : List Node :=
  [.tag ⟨true, none, "CS 0007 - Intro to Computing"⟩,
   .tag ⟨false, some "http://x/1", c2_link_text⟩,
   .tag ⟨false, some "http://x/2", c2_link_text⟩,
   .tag ⟨true, none, "CS 0010 - Other Course"⟩,
   .tag ⟨false, some "http://x/3", c2_link_text⟩]

def c3_subject : PittSubject :=
  (PittSubject.parse_webpage ⟨"CS", "2194", []⟩ c3_doc).getD dummy_subject

def c3_sec (u : String) : PittSection :=
  (PittSection.init (some "CS") (some "2194") u
    (pySplit "\n" (pyStrip c2_link_text))).getD dummy_section

/-- C3 witness: the concrete fixture document of the claim, with two
distinct course numbers. -/
theorem c3_two_courses_witness :
    c3_subject.courses = ["0007", "0010"] ∧
    c3_subject._courses.map (fun kv => kv.2.sections) =
      [[c3_sec "http://x/1", c3_sec "http://x/2"], [c3_sec "http://x/3"]] ∧
    c3_subject._courses.map (fun kv => kv.2.sections.length) = [2, 1] :=
  c3_two_courses "CS" "2194" "CS 0007 - Intro to Computing"
    "CS 0010 - Other Course" "http://x/1" "http://x/2" "http://x/3"
    c2_link_text c2_link_text c2_link_text "0007" "0010"
    (c3_sec "http://x/1") (c3_sec "http://x/2") (c3_sec "http://x/3")
    c3_subject (by decide) (by decide) rfl rfl (by decide) rfl rfl rfl rfl
